import Mathlib

/-!
# Verification of the PAT# pattern extractor

A shallow embedding of `src/extract.py`, a tool that extracts 8×8
QuickDraw `PAT#` patterns from DeRez output text and writes PBM files
and sprite sheets.  Text is modelled as `List Char`, bytes as `Nat`
(values 0–255), images as pixel grids (`List (List Nat)`), and the
run's file outputs as an ordered list of `OutFile` values.  Python
exceptions are modelled with `Except`: an uncaught exception in `main`
corresponds to the run stopping with an error value.
-/

set_option autoImplicit false

namespace Extract

/-- The error conditions raised by the extractor (Python `ValueError`s),
carrying the data interpolated into the corresponding messages. -/
inductive DecodeErr where
  /-- "Odd number of hex digits found; input may be malformed." -/
  | oddHexDigits
  /-- "PAT# too short to contain count." -/
  | tooShort
  /-- "PAT# truncated: count={count}, need {needed} bytes, got {got}." -/
  | truncated (count needed got : Nat)
  deriving DecidableEq, Repr

/-! ## Byte Reconstructor (`parse_derez_patsharp_bytes`)

`HEXSTR_RE = re.compile(r'\$\s*"(.*?)"', re.DOTALL)` scans a block
body for `$"..."` literals.  We embed `findall` as a left-to-right
scanner: at a `$`, skip whitespace, require a `"`, and capture
(non-greedily) up to the next `"`; on a failed attempt the scan
resumes one character later, and on success it resumes after the
closing quote.  Fuel bounded by the input length makes the scanner
structurally recursive; every step consumes at least one character,
so the fuel never runs out before the input does. -/

/-- Python's `\s` on the latin-1 range: HT..CR, FS..US, space, NEL, NBSP. -/
def isPyWs (c : Char) : Bool :=
  (decide (9 ≤ c.toNat) && decide (c.toNat ≤ 13)) ||
  (decide (28 ≤ c.toNat) && decide (c.toNat ≤ 32)) ||
  decide (c.toNat = 133) || decide (c.toNat = 160)

/-- Drop the (maximal) leading run of whitespace, as `\s*` does before
a required `"`. -/
def skipWs : List Char → List Char
  | [] => []
  | c :: rest => if isPyWs c then skipWs rest else c :: rest

/-- Non-greedy capture `(.*?)"`: the content up to the first `"`, and
the remainder after it; `none` when no closing quote exists. -/
def takeUntilQuote : List Char → Option (List Char × List Char)
  | [] => none
  | c :: rest =>
    if c = '"' then some ([], rest)
    else
      match takeUntilQuote rest with
      | none => none
      | some (s, r) => some (c :: s, r)

/-- Attempt the part of the literal pattern after the `$`:
`\s*"(.*?)"`.  Returns the captured content and the rest of the input. -/
def tryMatchHex (l : List Char) : Option (List Char × List Char) :=
  match skipWs l with
  | '"' :: rest => takeUntilQuote rest
  | _ => none

/-- One scanning pass of `HEXSTR_RE.findall`, fuelled. -/
def hexScan : Nat → List Char → List (List Char)
  | 0, _ => []
  | _ + 1, [] => []
  | fuel + 1, c :: rest =>
    if c = '$' then
      match tryMatchHex rest with
      | some (content, rest') => content :: hexScan fuel rest'
      | none => hexScan fuel rest
    else hexScan fuel rest

/-- `HEXSTR_RE.findall(block_text)`: all `$"..."` captures, in order. -/
def hexFindall (l : List Char) : List (List Char) :=
  hexScan l.length l

/-- A hexadecimal digit, i.e. the class `[0-9A-Fa-f]`. -/
def isHexChar (c : Char) : Bool :=
  (decide (48 ≤ c.toNat) && decide (c.toNat ≤ 57)) ||
  (decide (65 ≤ c.toNat) && decide (c.toNat ≤ 70)) ||
  (decide (97 ≤ c.toNat) && decide (c.toNat ≤ 102))

/-- `re.sub(r"[^0-9A-Fa-f]", "", chunk)`: delete every character that
is not a hex digit. -/
def cleanHex : List Char → List Char
  | [] => []
  | c :: rest => if isHexChar c then c :: cleanHex rest else cleanHex rest

/-- Numeric value of one hex digit (as `int(_, 16)` assigns it). -/
def hexDigitVal (c : Char) : Nat :=
  if decide (48 ≤ c.toNat) && decide (c.toNat ≤ 57) then c.toNat - 48
  else if decide (65 ≤ c.toNat) && decide (c.toNat ≤ 70) then c.toNat - 55
  else if decide (97 ≤ c.toNat) && decide (c.toNat ≤ 102) then c.toNat - 87
  else 0

/-- `int(hex_str[i:i+2], 16)` over consecutive pairs: each pair is one
byte, most significant nibble first. -/
def pairsToBytes : List Char → List Nat
  | a :: b :: rest => (16 * hexDigitVal a + hexDigitVal b) :: pairsToBytes rest
  | _ => []

/-- The concatenated, cleaned hex-digit stream of a block body
(`"".join(hex_only)` in the source). -/
def bodyDigits (body : List Char) : List Char :=
  ((hexFindall body).map cleanHex).flatten

/-- `parse_derez_patsharp_bytes`: extract and concatenate all `$"..."`
contents of a block body, returning raw bytes in resource order;
an empty byte string when no literals are found; an error when the
cleaned digit stream has odd length. -/
def parse_derez_patsharp_bytes (body : List Char) : Except DecodeErr (List Nat) :=
  if (hexFindall body).isEmpty then .ok []
  else if (bodyDigits body).length % 2 ≠ 0 then .error .oddHexDigits
  else .ok (pairsToBytes (bodyDigits body))

/-! ## Pattern Decoder (`decode_patsharp`) -/

/-- `int.from_bytes(raw[:2], "big")`: the declared pattern count. -/
def patCount (raw : List Nat) : Nat :=
  256 * raw.getD 0 0 + raw.getD 1 0

/-- `decode_patsharp`: `[u16_be count] + count * 8` bytes.  Returns the
list of 8-byte patterns together with the optional trailing-bytes
warning (`some extra` models the printed `[warn]` notice). -/
def decode_patsharp (raw : List Nat) :
    Except DecodeErr (List (List Nat) × Option Nat) :=
  if raw.length < 2 then .error .tooShort
  else
    let count := patCount raw
    let expected := 2 + count * 8
    if raw.length < expected then .error (.truncated count expected raw.length)
    else
      let warn := if expected < raw.length then some (raw.length - expected) else none
      .ok ((List.range count).map (fun i => ((raw.drop (2 + i * 8)).take 8)), warn)

/-! ## Rasterizer (`pattern_to_image`, `write_pbm`, sprite sheets) -/

/-- `(byte >> (7 - x)) & 1`: the ink bit of row byte `y` at column `x`
(MSB = leftmost pixel). -/
def inkBit (rows : List Nat) (x y : Nat) : Nat :=
  ((rows.getD y 0) >>> (7 - x)) &&& 1

/-- `pattern_to_image`: an 8×8 grid of 1-bit pixels, row-major; the
image starts all white (`1`) and each ink bit paints `0` (black). -/
def pattern_to_image (rows : List Nat) : List (List Nat) :=
  (List.range 8).map fun y =>
    (List.range 8).map fun x => if inkBit rows x y = 1 then 0 else 1

/-- Pixel accessor for a grid image: row `y`, column `x`; outside the
grid the background `1` (white) is reported. -/
def pixelAt (img : List (List Nat)) (x y : Nat) : Nat :=
  (img.getD y []).getD x 1

/-- The digits of one PBM data row: `(byte >> (7 - x)) & 1` for
`x = 0..7`, written as-is. -/
def pbmRowDigits (byte : Nat) : List Nat :=
  (List.range 8).map fun x => (byte >>> (7 - x)) &&& 1

/-- The digit grid of the PBM body, one row per pattern byte. -/
def pbmDigits (rows : List Nat) : List (List Nat) :=
  rows.map pbmRowDigits

def spaceSep : String := " "

/-- One text line of PBM data: the digits joined by single spaces. -/
def pbmLine (byte : Nat) : String :=
  String.intercalate spaceSep ((pbmRowDigits byte).map toString)

/-- `write_pbm`: the full text written to the `.pbm` file. -/
def write_pbm (rows : List Nat) : String :=
  "P1\n8 8\n" ++ String.join (rows.map fun byte => pbmLine byte ++ "\n")

/-- A file produced by the run: either a PBM file with its text, or a
sprite sheet; for sheets we record the path, the column count and the
number of pattern rows of the grid. -/
inductive OutFile where
  | pbm (path : String) (content : String)
  | sheet (path : String) (cols patternRows : Nat)
  | labeledSheet (path : String) (cols patternRows : Nat)
  deriving DecidableEq, Repr

/-- `save_sprite_sheet`: returns early (no file) for an empty image
list; otherwise a grid with `ceil(n / cols)` pattern rows. -/
def save_sprite_sheet (images : List (List (List Nat))) (cols : Nat)
    (path : String) : Option OutFile :=
  if images.isEmpty then none
  else some (.sheet path cols ((images.length + cols - 1) / cols))

/-- `save_labeled_sprite_sheet`: same early return and grid shape. -/
def save_labeled_sprite_sheet (images : List (List (List Nat))) (cols : Nat)
    (path : String) : Option OutFile :=
  if images.isEmpty then none
  else some (.labeledSheet path cols ((images.length + cols - 1) / cols))

/-! ## The main loop -/

/-- `f"{i:02d}"`: zero-padded to two digits. -/
def pad2 (n : Nat) : String :=
  if n < 10 then "0" ++ toString n else toString n

/-- `outdir / f"pattern_{i:02d}.pbm"` (relative to the output dir). -/
def pbmPath (i : Nat) : String :=
  "pattern_" ++ pad2 i ++ ".pbm"

/-- `outdir / f"patsharp_{resid}_sheet.png"`. -/
def sheetPath (resid : Nat) : String :=
  "patsharp_" ++ toString resid ++ "_sheet.png"

/-- `outdir / f"patsharp_{resid}_sheet_labeled.png"`. -/
def labeledSheetPath (resid : Nat) : String :=
  "patsharp_" ++ toString resid ++ "_sheet_labeled.png"

/-- One `PAT#` block as matched by `PATBLOCK_RE` in `main`: the numeric
identifier and the brace-delimited body text. -/
structure Block where
  resid : Nat
  body : List Char
  deriving DecidableEq, Repr

/-- The files `main` writes for one successfully decoded block, in
write order: one PBM per pattern, then the sprite sheets (which are
skipped entirely when there are no patterns). -/
def blockFiles (resid : Nat) (patterns : List (List Nat)) : List OutFile :=
  (patterns.enum.map fun p => OutFile.pbm (pbmPath p.1) (write_pbm p.2))
  ++ (save_sprite_sheet (patterns.map pattern_to_image) 8 (sheetPath resid)).toList
  ++ (save_labeled_sprite_sheet (patterns.map pattern_to_image) 8
        (labeledSheetPath resid)).toList

/-- The body of `main`'s per-block loop: reconstruct the bytes, decode
the patterns, and on success produce the block's files. -/
def processBlock (b : Block) : Except DecodeErr (List OutFile) :=
  match parse_derez_patsharp_bytes b.body with
  | .error e => .error e
  | .ok raw =>
    match decode_patsharp raw with
    | .error e => .error e
    | .ok (patterns, _warn) => .ok (blockFiles b.resid patterns)

/-- `main`'s iteration over the matched blocks, in source order.  A
raised `ValueError` is uncaught in the source, so processing stops at
the first failing block: the result is the list of files written
before the failure, and the error if one occurred. -/
def runMain : List Block → List OutFile × Option DecodeErr
  | [] => ([], none)
  | b :: bs =>
    match processBlock b with
    | .error e => ([], some e)
    | .ok fs => (fs ++ (runMain bs).1, (runMain bs).2)

/-! ## Concrete demonstration inputs -/

/-- Body of the spec's scenario block: `$"0001 FF00 0000 0000 0000"`
with the whitespace already outside the digits (10 bytes, count 1,
pattern `FF 00 00 00 00 00 00 00`). -/
def demoBody1 : List Char :=
  '$' :: '"' :: ("0001FF00000000000000".data ++ ['"'])

/-- A second well-formed body: count 1, pattern `00 FF 00 00 00 00 00 00`. -/
def demoBody2 : List Char :=
  '$' :: '"' :: ("000100FF000000000000".data ++ ['"'])

/-- A malformed body: three hex digits, an odd-length stream. -/
def demoBadBody : List Char :=
  '$' :: '"' :: ("000".data ++ ['"'])

/-! ## General lemmas -/

deriving instance DecidableEq for Except

theorem getD_map_range {α : Type} (f : Nat → α) (n i : Nat) (d : α)
    (h : i < n) : ((List.range n).map f).getD i d = f i := by
  rw [List.getD_eq_getElem?_getD, List.getElem?_map, List.getElem?_range h]
  rfl

/-! ## Claims about the Pattern Decoder -/

/-- C3: for every byte sequence `raw` with `len(raw) ≥ 2 + 8*N`, where
`N` is the big-endian u16 formed by `raw[0], raw[1]`, the decoder
returns exactly `N` patterns, the `i`-th being exactly the 8 bytes
`raw[2+8*i .. 2+8*i+8)`, in order. -/
theorem decode_exact_layout (raw : List Nat)
    (h : 2 + 8 * patCount raw ≤ raw.length) :
    ∃ pats warn, decode_patsharp raw = .ok (pats, warn)
      ∧ pats.length = patCount raw
      ∧ ∀ i, i < patCount raw →
          pats.getD i [] = (raw.drop (2 + 8 * i)).take 8
          ∧ (pats.getD i []).length = 8 := by
  refine ⟨(List.range (patCount raw)).map (fun i => ((raw.drop (2 + i * 8)).take 8)),
    if 2 + patCount raw * 8 < raw.length then some (raw.length - (2 + patCount raw * 8))
      else none, ?_, ?_, ?_⟩
  · simp only [decode_patsharp]
    rw [if_neg (by omega), if_neg (by omega)]
  · simp
  · intro i hi
    rw [getD_map_range _ _ _ _ hi]
    constructor
    · rw [Nat.mul_comm]
    · rw [List.length_take, List.length_drop]
      omega

/-- C3 witness: a 10-byte payload with count 1. -/
theorem decode_exact_layout_witness :
    ∃ pats warn, decode_patsharp [0, 1, 1, 2, 3, 4, 5, 6, 7, 8] = .ok (pats, warn)
      ∧ pats.length = patCount [0, 1, 1, 2, 3, 4, 5, 6, 7, 8]
      ∧ ∀ i, i < patCount [0, 1, 1, 2, 3, 4, 5, 6, 7, 8] →
          pats.getD i [] = (([0, 1, 1, 2, 3, 4, 5, 6, 7, 8] : List Nat).drop (2 + 8 * i)).take 8
          ∧ (pats.getD i []).length = 8 :=
  decode_exact_layout [0, 1, 1, 2, 3, 4, 5, 6, 7, 8] (by decide)

/-- C4: a payload shorter than `2 + 8*N` (but long enough to carry the
count) fails with a truncation error carrying the declared count, the
required length and the actual length, and produces no patterns. -/
theorem decode_truncated (raw : List Nat) (h2 : 2 ≤ raw.length)
    (h : raw.length < 2 + 8 * patCount raw) :
    decode_patsharp raw =
      .error (.truncated (patCount raw) (2 + patCount raw * 8) raw.length) := by
  simp only [decode_patsharp]
  rw [if_neg (by omega), if_pos (by omega)]

/-- C4 witness: count 1 declared, only 4 bytes present. -/
theorem decode_truncated_witness :
    decode_patsharp [0, 1, 255, 255] =
      .error (.truncated (patCount [0, 1, 255, 255]) (2 + patCount [0, 1, 255, 255] * 8) 4) :=
  decode_truncated [0, 1, 255, 255] (by decide) (by decide)

/-- C5: a payload strictly longer than `2 + 8*N` decodes successfully
to exactly the first `N` patterns, with the trailing-bytes notice
carrying the exact excess byte count; every returned pattern is drawn
entirely from the first `2 + 8*N` bytes, so the excess never appears. -/
theorem decode_trailing (raw : List Nat)
    (h : 2 + 8 * patCount raw < raw.length) :
    ∃ pats, decode_patsharp raw =
        .ok (pats, some (raw.length - (2 + patCount raw * 8)))
      ∧ pats.length = patCount raw
      ∧ ∀ i, i < patCount raw →
          pats.getD i [] =
            ((raw.take (2 + patCount raw * 8)).drop (2 + 8 * i)).take 8 := by
  refine ⟨(List.range (patCount raw)).map (fun i => ((raw.drop (2 + i * 8)).take 8)),
    ?_, ?_, ?_⟩
  · simp only [decode_patsharp]
    rw [if_neg (by omega), if_neg (by omega), if_pos (by omega)]
  · simp
  · intro i hi
    rw [getD_map_range _ _ _ _ hi, List.drop_take, List.take_take,
      min_eq_left (by omega : 8 ≤ 2 + patCount raw * 8 - (2 + 8 * i)), Nat.mul_comm]

/-- C5 witness: count 1, 13 bytes, 3 trailing bytes ignored. -/
theorem decode_trailing_witness :
    ∃ pats, decode_patsharp [0, 1, 1, 2, 3, 4, 5, 6, 7, 8, 9, 10, 11] =
        .ok (pats, some (13 - (2 + patCount [0, 1, 1, 2, 3, 4, 5, 6, 7, 8, 9, 10, 11] * 8)))
      ∧ pats.length = patCount [0, 1, 1, 2, 3, 4, 5, 6, 7, 8, 9, 10, 11]
      ∧ ∀ i, i < patCount [0, 1, 1, 2, 3, 4, 5, 6, 7, 8, 9, 10, 11] →
          pats.getD i [] =
            ((([0, 1, 1, 2, 3, 4, 5, 6, 7, 8, 9, 10, 11] : List Nat).take
                (2 + patCount [0, 1, 1, 2, 3, 4, 5, 6, 7, 8, 9, 10, 11] * 8)).drop
              (2 + 8 * i)).take 8 :=
  decode_trailing [0, 1, 1, 2, 3, 4, 5, 6, 7, 8, 9, 10, 11] (by decide)

/-- C9: a payload of length ≥ 2 whose first two bytes decode to count 0
decodes successfully to zero patterns (with at most a trailing-bytes
notice), and a block with zero patterns produces no files at all: no
per-pattern image and no composite sheet, hence zero pattern rows. -/
theorem decode_zero_count (raw : List Nat) (h2 : 2 ≤ raw.length)
    (h0 : patCount raw = 0) :
    decode_patsharp raw =
        .ok ([], if 2 < raw.length then some (raw.length - 2) else none)
      ∧ (∀ resid, blockFiles resid [] = []
          ∧ save_sprite_sheet (([] : List (List Nat)).map pattern_to_image) 8
              (sheetPath resid) = none) := by
  constructor
  · simp only [decode_patsharp, h0]
    rw [if_neg (by omega), if_neg (by omega)]
    norm_num
  · intro resid
    constructor
    · simp [blockFiles, save_sprite_sheet, save_labeled_sprite_sheet]
    · simp [save_sprite_sheet]

/-- C9 witness: the two-byte payload `00 00`. -/
theorem decode_zero_count_witness :
    decode_patsharp [0, 0] =
        .ok ([], if 2 < ([0, 0] : List Nat).length
          then some (([0, 0] : List Nat).length - 2) else none)
      ∧ (∀ resid, blockFiles resid [] = []
          ∧ save_sprite_sheet (([] : List (List Nat)).map pattern_to_image) 8
              (sheetPath resid) = none) :=
  decode_zero_count [0, 0] (by decide) (by decide)

/-! ## Claims about the main loop (error isolation and output naming) -/

/-- The contents of the PBM files written at a given path, in write
order; a later entry at the same path overwrites an earlier one on
disk. -/
def pbmAt (path : String) (fs : List OutFile) : List String :=
  fs.filterMap fun f =>
    match f with
    | .pbm p c => if p = path then some c else none
    | _ => none

/-- C1 counterexample: with a malformed block (id 128) followed by a
well-formed block (id 129), the well-formed block decodes to a
non-empty set of outputs on its own, yet the run produces no files at
all and stops with the first block's error — the failure is not caught
at the block boundary and does halt iteration. -/
theorem halt_on_bad_block_counterexample :
    processBlock ⟨128, demoBadBody⟩ = .error .oddHexDigits
    ∧ processBlock ⟨129, demoBody1⟩
        = .ok (blockFiles 129 [[255, 0, 0, 0, 0, 0, 0, 0]])
    ∧ blockFiles 129 [[255, 0, 0, 0, 0, 0, 0, 0]] ≠ []
    ∧ runMain [⟨128, demoBadBody⟩, ⟨129, demoBody1⟩] = ([], some .oddHexDigits) :=
  ⟨by decide, by decide, by decide, by decide⟩

/-- C1 amended: a decode failure in one block is uncaught and halts the
run at that block: the blocks before it are fully processed and
exported, and the failing block and every later block produce no
outputs. -/
theorem run_halts_at_first_failure (bs cs : List Block) (b : Block) (e : DecodeErr)
    (hok : (runMain bs).2 = none) (hbad : processBlock b = .error e) :
    runMain (bs ++ b :: cs) = ((runMain bs).1, some e) := by
  induction bs with
  | nil => simp [runMain, hbad]
  | cons b0 bs ih =>
    cases hpb : processBlock b0 with
    | error e0 =>
      rw [runMain, hpb] at hok
      simp at hok
    | ok fs =>
      rw [runMain, hpb] at hok
      simp only [List.cons_append, runMain, hpb, List.append_eq]
      rw [ih hok]

/-- C1 witness: a good block followed by a bad one; the good block's
files are written, then the run stops with the bad block's error. -/
theorem run_halts_at_first_failure_witness :
    (runMain [⟨129, demoBody1⟩]).2 = none
    ∧ processBlock ⟨128, demoBadBody⟩ = .error .oddHexDigits
    ∧ runMain [⟨129, demoBody1⟩, ⟨128, demoBadBody⟩] =
        ((runMain [⟨129, demoBody1⟩]).1, some .oddHexDigits) :=
  ⟨by decide, by decide,
    run_halts_at_first_failure [⟨129, demoBody1⟩] [] ⟨128, demoBadBody⟩ .oddHexDigits
      (by decide) (by decide)⟩

/-- C2 counterexample: two well-formed blocks with ids 128 and 129,
one pattern each.  The run succeeds, but the path `pattern_00.pbm` is
written twice with different contents: the per-pattern outputs of the
two blocks are not independent, the second overwrites the first. -/
theorem overlapping_pbm_counterexample :
    (runMain [⟨128, demoBody1⟩, ⟨129, demoBody2⟩]).2 = none
    ∧ (pbmAt (pbmPath 0) (runMain [⟨128, demoBody1⟩, ⟨129, demoBody2⟩]).1).length = 2
    ∧ (pbmAt (pbmPath 0) (runMain [⟨128, demoBody1⟩, ⟨129, demoBody2⟩]).1).getD 0 spaceSep
        ≠ (pbmAt (pbmPath 0) (runMain [⟨128, demoBody1⟩, ⟨129, demoBody2⟩]).1).getD 1 spaceSep :=
  ⟨by decide, by decide, by decide⟩

/-- C2 amended: for a source with two decodable blocks with ids 128 and
129, the run succeeds and yields each block's outputs in source order,
and the sheet files are named per id (hence independent); but the
per-pattern PBM files are named by pattern index alone, so when both
blocks have at least one pattern they both write their first pattern
to the same path `pattern_00.pbm`, the later write overwriting the
earlier. -/
theorem two_block_outputs (body1 body2 : List Char) (raw1 raw2 : List Nat)
    (p1 p2 : List (List Nat)) (w1 w2 : Option Nat)
    (hr1 : parse_derez_patsharp_bytes body1 = .ok raw1)
    (hd1 : decode_patsharp raw1 = .ok (p1, w1))
    (hr2 : parse_derez_patsharp_bytes body2 = .ok raw2)
    (hd2 : decode_patsharp raw2 = .ok (p2, w2)) :
    runMain [⟨128, body1⟩, ⟨129, body2⟩] =
        (blockFiles 128 p1 ++ blockFiles 129 p2, none)
      ∧ sheetPath 128 ≠ sheetPath 129
      ∧ labeledSheetPath 128 ≠ labeledSheetPath 129
      ∧ (p1 ≠ [] → p2 ≠ [] →
          (blockFiles 128 p1).head?
              = some (.pbm (pbmPath 0) (write_pbm (p1.headD [])))
          ∧ (blockFiles 129 p2).head?
              = some (.pbm (pbmPath 0) (write_pbm (p2.headD [])))) := by
  refine ⟨?_, by decide, by decide, ?_⟩
  · simp [runMain, processBlock, hr1, hd1, hr2, hd2]
  · intro hp1 hp2
    constructor
    · rcases p1 with _ | ⟨a, t⟩
      · exact absurd rfl hp1
      · simp [blockFiles, List.enum_cons]
    · rcases p2 with _ | ⟨a, t⟩
      · exact absurd rfl hp2
      · simp [blockFiles, List.enum_cons]

/-- C2 witness: the two demonstration blocks, fully instantiated. -/
theorem two_block_outputs_witness :
    runMain [⟨128, demoBody1⟩, ⟨129, demoBody2⟩] =
        (blockFiles 128 [[255, 0, 0, 0, 0, 0, 0, 0]]
          ++ blockFiles 129 [[0, 255, 0, 0, 0, 0, 0, 0]], none)
      ∧ sheetPath 128 ≠ sheetPath 129
      ∧ (blockFiles 128 [[255, 0, 0, 0, 0, 0, 0, 0]]).head?
          = some (.pbm (pbmPath 0) (write_pbm [255, 0, 0, 0, 0, 0, 0, 0]))
      ∧ (blockFiles 129 [[0, 255, 0, 0, 0, 0, 0, 0]]).head?
          = some (.pbm (pbmPath 0) (write_pbm [0, 255, 0, 0, 0, 0, 0, 0])) := by
  have h := two_block_outputs demoBody1 demoBody2
    [0, 1, 255, 0, 0, 0, 0, 0, 0, 0] [0, 1, 0, 255, 0, 0, 0, 0, 0, 0]
    [[255, 0, 0, 0, 0, 0, 0, 0]] [[0, 255, 0, 0, 0, 0, 0, 0]] none none
    (by decide) (by decide) (by decide) (by decide)
  refine ⟨h.1, h.2.1, ?_, ?_⟩
  · simpa using (h.2.2.2 (by decide) (by decide)).1
  · simpa using (h.2.2.2 (by decide) (by decide)).2

/-! ## Claims about the Byte Reconstructor and the Rasterizer -/

theorem getD_map_of_lt {α β : Type} (f : α → β) (l : List α) (i : Nat)
    (d : α) (d' : β) (h : i < l.length) :
    (l.map f).getD i d' = f (l.getD i d) := by
  rw [List.getD_eq_getElem?_getD, List.getElem?_map, List.getElem?_eq_getElem h,
    List.getD_eq_getElem?_getD, List.getElem?_eq_getElem h]
  rfl

/-- C6: for a block body, (i) no quoted hex literals yields the empty
byte sequence without error; (ii) an odd concatenated cleaned digit
stream yields the malformed-input error, which is distinct from the
empty success; (iii) an even stream yields the bytes of consecutive
digit pairs, most significant nibble first, in body order. -/
theorem parse_body_cases (body : List Char) :
    (hexFindall body = [] → parse_derez_patsharp_bytes body = .ok [])
    ∧ ((bodyDigits body).length % 2 = 1 →
        parse_derez_patsharp_bytes body = .error .oddHexDigits)
    ∧ ((bodyDigits body).length % 2 = 0 →
        parse_derez_patsharp_bytes body = .ok (pairsToBytes (bodyDigits body)))
    ∧ (Except.error .oddHexDigits ≠ (Except.ok [] : Except DecodeErr (List Nat)))
    ∧ (∀ a b rest, pairsToBytes (a :: b :: rest) =
        (16 * hexDigitVal a + hexDigitVal b) :: pairsToBytes rest) := by
  refine ⟨?_, ?_, ?_, by simp, fun a b rest => rfl⟩
  · intro h
    simp [parse_derez_patsharp_bytes, h]
  · intro h
    have hne : ¬(hexFindall body).isEmpty := by
      intro he
      rw [List.isEmpty_iff] at he
      rw [bodyDigits, he] at h
      simp at h
    simp [parse_derez_patsharp_bytes, hne, h]
  · by_cases hne : (hexFindall body).isEmpty
    · intro _
      rw [List.isEmpty_iff] at hne
      simp [parse_derez_patsharp_bytes, hne, bodyDigits, pairsToBytes]
    · intro h
      simp [parse_derez_patsharp_bytes, hne, h]

/-- C6 witness: an empty body, an odd-digit body, and a well-formed
body, one per branch of the contract. -/
theorem parse_body_cases_witness :
    parse_derez_patsharp_bytes [] = .ok []
    ∧ parse_derez_patsharp_bytes demoBadBody = .error .oddHexDigits
    ∧ parse_derez_patsharp_bytes demoBody1 = .ok (pairsToBytes (bodyDigits demoBody1)) :=
  ⟨(parse_body_cases []).1 (by decide),
   (parse_body_cases demoBadBody).2.1 (by decide),
   (parse_body_cases demoBody1).2.2.1 (by decide)⟩

/-- C7: in the rasterized image of a pattern, pixel `(x, y)` is `0`
(black) when bit `(7 - x)` of row byte `y` is `1` (ink), and `1`
(white) when that bit is `0` — pixel-convention A. -/
theorem pattern_pixel_convention (rows : List Nat) (x y : Nat)
    (hx : x < 8) (hy : y < 8) :
    (inkBit rows x y = 1 → pixelAt (pattern_to_image rows) x y = 0)
    ∧ (inkBit rows x y = 0 → pixelAt (pattern_to_image rows) x y = 1) := by
  have hpx : pixelAt (pattern_to_image rows) x y
      = if inkBit rows x y = 1 then 0 else 1 := by
    rw [pixelAt, pattern_to_image, getD_map_range _ _ _ _ hy, getD_map_range _ _ _ _ hx]
  constructor
  · intro h
    rw [hpx, if_pos h]
  · intro h
    rw [hpx, if_neg (by omega)]

/-- C7 witness: pattern `FF 00 ...`: pixel (0,0) is black, (0,1) white. -/
theorem pattern_pixel_convention_witness :
    pixelAt (pattern_to_image [255, 0, 0, 0, 0, 0, 0, 0]) 0 0 = 0
    ∧ pixelAt (pattern_to_image [255, 0, 0, 0, 0, 0, 0, 0]) 0 1 = 1 :=
  ⟨(pattern_pixel_convention [255, 0, 0, 0, 0, 0, 0, 0] 0 0 (by decide) (by decide)).1
      (by decide),
   (pattern_pixel_convention [255, 0, 0, 0, 0, 0, 0, 0] 0 1 (by decide) (by decide)).2
      (by decide)⟩

/-- C8: the digit written at column `x` of data row `y` of the PBM
output is exactly bit `(7 - x)` of byte `y` (ink bit `1` → digit `1`,
ink bit `0` → digit `0`), which is the inverse polarity of
pixel-convention A on the same input: digit + pixel = 1. -/
theorem pbm_digit_convention (rows : List Nat) (x y : Nat)
    (hlen : rows.length = 8) (hx : x < 8) (hy : y < 8) :
    ((pbmDigits rows).getD y []).getD x 0 = inkBit rows x y
    ∧ ((pbmDigits rows).getD y []).getD x 0
        + pixelAt (pattern_to_image rows) x y = 1 := by
  have hy' : y < rows.length := by omega
  have hdig : ((pbmDigits rows).getD y []).getD x 0 = inkBit rows x y := by
    rw [pbmDigits, getD_map_of_lt pbmRowDigits rows y 0 [] hy', pbmRowDigits,
      getD_map_range _ _ _ _ hx, inkBit]
  have hpx : pixelAt (pattern_to_image rows) x y
      = if inkBit rows x y = 1 then 0 else 1 := by
    rw [pixelAt, pattern_to_image, getD_map_range _ _ _ _ hy, getD_map_range _ _ _ _ hx]
  have hbit : inkBit rows x y = 0 ∨ inkBit rows x y = 1 := by
    rw [inkBit, Nat.and_one_is_mod]
    omega
  refine ⟨hdig, ?_⟩
  rcases hbit with h | h <;> rw [hdig, hpx, h] <;> simp

/-- C8 witness: pattern `FF 00 ...`: digit (0,0) is 1 where the image
pixel is 0, digit (0,1) is 0 where the image pixel is 1. -/
theorem pbm_digit_convention_witness :
    (((pbmDigits [255, 0, 0, 0, 0, 0, 0, 0]).getD 0 []).getD 0 0
        = inkBit [255, 0, 0, 0, 0, 0, 0, 0] 0 0
      ∧ ((pbmDigits [255, 0, 0, 0, 0, 0, 0, 0]).getD 0 []).getD 0 0
          + pixelAt (pattern_to_image [255, 0, 0, 0, 0, 0, 0, 0]) 0 0 = 1)
    ∧ (((pbmDigits [255, 0, 0, 0, 0, 0, 0, 0]).getD 1 []).getD 0 0
        = inkBit [255, 0, 0, 0, 0, 0, 0, 0] 0 1
      ∧ ((pbmDigits [255, 0, 0, 0, 0, 0, 0, 0]).getD 1 []).getD 0 0
          + pixelAt (pattern_to_image [255, 0, 0, 0, 0, 0, 0, 0]) 0 1 = 1) :=
  ⟨pbm_digit_convention [255, 0, 0, 0, 0, 0, 0, 0] 0 0 (by decide) (by decide) (by decide),
   pbm_digit_convention [255, 0, 0, 0, 0, 0, 0, 0] 0 1 (by decide) (by decide) (by decide)⟩

/-- A literal whose quoted content has no hex digit at all. -/
def xyzBody : List Char := '$' :: '"' :: ("XYZ".data ++ ['"'])

/-- A literal with garbage interleaved between hex digits. -/
def garbledBody : List Char := '$' :: '"' :: ("F*F".data ++ ['"'])

/-- The same literal with the garbage removed. -/
def pureBody : List Char := '$' :: '"' :: ("FF".data ++ ['"'])

/-- C10: inside a quoted literal every non-hex character is stripped,
not only whitespace: cleaning is exactly `filter isHexChar`; the
literal `$"XYZ"` is found but contributes zero bytes and raises no
error; and garbage interleaved with digits (`$"F*F"`) is silently
discarded, decoding exactly like `$"FF"`. -/
theorem strip_nonhex_inside_literal :
    (∀ s : List Char, cleanHex s = s.filter isHexChar)
    ∧ hexFindall xyzBody = ["XYZ".data]
    ∧ parse_derez_patsharp_bytes xyzBody = .ok []
    ∧ parse_derez_patsharp_bytes garbledBody = .ok [255]
    ∧ parse_derez_patsharp_bytes garbledBody = parse_derez_patsharp_bytes pureBody := by
  refine ⟨?_, by decide, by decide, by decide, by decide⟩
  intro s
  induction s with
  | nil => rfl
  | cons c rest ih =>
    by_cases h : isHexChar c <;> simp [cleanHex, List.filter_cons, h, ih]

end Extract
